import Mathlib

/-!
Verification of the restriction-inference and safety-decision core of the
Healthy food-safety repository (src/models.py, src/rag_engine.py,
src/web_scraper.py), as a shallow embedding.

Strings are modelled as lists of characters (`Str`).  Python's `a in b`
substring test is `pyIn`, `str.lower()` is `lowerStr` (ASCII case folding,
which covers every literal appearing in the sources), and the regular
expressions used by the sources are embedded as deterministic matchers:
every pattern in the sources alternates character classes that are
pairwise disjoint (word characters, whitespace, literals), so the greedy
leftmost Python match is reproduced exactly by maximal-munch matching.
`list(set(xs))` is modelled as `List.dedup` (the order of a Python set is
unspecified; all theorems about such collections are stated via membership
and duplicate-freeness, never via element order).
-/

abbrev Str := List Char

def lit (s : String) : Str := s.data

/-- ASCII case folding of a single character, as performed by `str.lower()`
on the ASCII strings this program manipulates. -/
def lowerChar (c : Char) : Char :=
  if 65 ≤ c.toNat ∧ c.toNat ≤ 90 then Char.ofNat (c.toNat + 32) else c

/-- Python `s.lower()`. -/
def lowerStr (s : Str) : Str := s.map lowerChar

/-- Python `a in b` for strings: substring containment. -/
def pyIn (a : Str) (b : Str) : Bool :=
  match b with
  | [] => a.isEmpty
  | c :: t => a.isPrefixOf (c :: t) || pyIn a t

/-- Python `\w` (ASCII fragment): letters, digits, underscore. -/
def isWordChar (c : Char) : Bool := c.isAlphanum || c == '_'

/-- Python `\s` (ASCII fragment): whitespace characters. -/
def isSpaceChar (c : Char) : Bool :=
  c == ' ' || c == '\t' || c == '\n' || c == '\r' || c == '\x0b' || c == '\x0c'

/-- Python `\d` (ASCII fragment). -/
def isDigitChar (c : Char) : Bool := c.isDigit

/-- Python `s.strip()`: remove leading and trailing whitespace. -/
def pyStrip (s : Str) : Str :=
  ((s.dropWhile isSpaceChar).reverse.dropWhile isSpaceChar).reverse

/-- Python `s.split(c)` for a single-character separator. -/
def splitChar (sep : Char) : Str → List Str
  | [] => [[]]
  | a :: t =>
    if a == sep then [] :: splitChar sep t
    else
      match splitChar sep t with
      | h :: r => (a :: h) :: r
      | [] => [[a]]

/-- Python `text.split(chr(10) + chr(10))`: split on a double newline,
leftmost and non-overlapping (used by `extract_description`). -/
def splitPar : Str → List Str
  | '\n' :: '\n' :: t => [] :: splitPar t
  | a :: t =>
    match splitPar t with
    | h :: r => (a :: h) :: r
    | [] => [[a]]
  | [] => [[]]

/-!  ## Knowledge base (src/models.py, class FoodSafetyKnowledge)  -/

/-- `FoodSafetyKnowledge.INTERACTIONS`: medication-fragment to risky foods,
in source (insertion) order. -/
def INTERACTIONS : List (Str × List Str) := [
  (lit "warfarin", [lit "green leafy vegetables", lit "cranberries", lit "grapefruit"]),
  (lit "statins", [lit "grapefruit", lit "grapefruit juice"]),
  (lit "antibiotics", [lit "dairy", lit "alcohol", lit "caffeine"]),
  (lit "maoi", [lit "aged cheese", lit "cured meats", lit "draft beer", lit "sauerkraut", lit "soy sauce"]),
  (lit "ace inhibitors", [lit "bananas", lit "potassium supplements", lit "salt substitutes"]),
  (lit "digoxin", [lit "high-fiber foods", lit "licorice"]),
  (lit "diuretics", [lit "licorice", lit "alcohol"]),
  (lit "thyroid medication", [lit "soy", lit "walnuts", lit "high-fiber foods"])]

/-- `FoodSafetyKnowledge.ALLERGIES`: the canonical allergen vocabulary. -/
def ALLERGIES : List Str := [
  lit "peanuts", lit "tree nuts", lit "milk", lit "eggs", lit "fish", lit "shellfish",
  lit "soy", lit "wheat", lit "gluten", lit "sesame"]

/-- `FoodSafetyKnowledge.CONDITIONS`: condition-fragment to avoided foods,
in source (insertion) order. -/
def CONDITIONS : List (Str × List Str) := [
  (lit "diabetes", [lit "sugar", lit "high carbs", lit "honey", lit "syrup"]),
  (lit "hypertension", [lit "salt", lit "sodium", lit "cured meats", lit "pickles", lit "canned soups"]),
  (lit "high cholesterol", [lit "saturated fats", lit "trans fats", lit "fatty meats"]),
  (lit "gout", [lit "red meat", lit "organ meats", lit "seafood", lit "alcohol", lit "high-fructose"]),
  (lit "kidney disease", [lit "phosphorus", lit "potassium", lit "sodium", lit "protein"]),
  (lit "celiac", [lit "gluten", lit "wheat", lit "barley", lit "rye"]),
  (lit "heart disease", [lit "saturated fat", lit "trans fat", lit "cholesterol", lit "sodium"]),
  (lit "ibs", [lit "dairy", lit "wheat", lit "citrus fruits", lit "beans", lit "cabbage"])]

/-- The matching test of `models.py`: `med in medication_name or medication_name in med`
(both sides already lower-cased by the callers). -/
def fragMatch (key m : Str) : Bool := pyIn key m || pyIn m key

/-- The lookup loop shared by the two knowledge-base functions: return the
food list of the first key matching the query, or `[]` when none does. -/
def firstMatchingFoods (table : List (Str × List Str)) (m : Str) : List Str :=
  match table with
  | [] => []
  | (key, foods) :: rest => if fragMatch key m then foods else firstMatchingFoods rest m

/-- `FoodSafetyKnowledge.get_risky_foods_for_medication` (src/models.py). -/
def get_risky_foods_for_medication (medication_name : Str) : List Str :=
  firstMatchingFoods INTERACTIONS (lowerStr medication_name)

/-- `FoodSafetyKnowledge.get_foods_to_avoid_for_condition` (src/models.py). -/
def get_foods_to_avoid_for_condition (condition : Str) : List Str :=
  firstMatchingFoods CONDITIONS (lowerStr condition)

/-- Modelled from the spec (for comparison with the source lookup): the
union of the food lists of ALL keys matching the query, as the contract in
spec section 4.1 words it. -/
def risky_foods_spec (name : Str) : List Str :=
  (INTERACTIONS.filter (fun p => fragMatch p.1 (lowerStr name))).flatMap Prod.snd

/-- Modelled from the spec (for comparison with the source lookup): the
union of the food lists of ALL condition keys matching the query. -/
def avoided_foods_spec (name : Str) : List Str :=
  (CONDITIONS.filter (fun p => fragMatch p.1 (lowerStr name))).flatMap Prod.snd

/-!  ## Embedded regular-expression matchers

Each matcher attempts the pattern at the start of its argument and returns
`some (capture, rest)` on success.  Because every pattern in the sources
joins pieces over pairwise-disjoint character classes, the greedy Python
semantics is exactly maximal munch and needs no backtracking.  -/

/-- Match a literal, returning the remainder. -/
def matchLit (pat : Str) (s : Str) : Option Str :=
  if pat.isPrefixOf s then some (s.drop pat.length) else none

/-- Match a literal case-insensitively (`re.IGNORECASE`), returning the
remainder. -/
def matchLitCI (pat : Str) (s : Str) : Option Str :=
  match pat, s with
  | [], s => some s
  | _ :: _, [] => none
  | p :: ps, c :: cs => if lowerChar p == lowerChar c then matchLitCI ps cs else none

/-- Greedy `C+` for a character class: the maximal non-empty run. -/
def matchPlus (p : Char → Bool) (s : Str) : Option (Str × Str) :=
  match s.takeWhile p with
  | [] => none
  | t => some (t, s.dropWhile p)

/-- Greedy `C*` for a character class: the maximal (possibly empty) run. -/
def matchStar (p : Char → Bool) (s : Str) : Str × Str :=
  (s.takeWhile p, s.dropWhile p)

/-- The capture `(\w+(\s+\w+)?)` shared by the condition and allergy
patterns: one word, optionally extended by whitespace and a second word. -/
def captureTwoWords (s : Str) : Option (Str × Str) :=
  match matchPlus isWordChar s with
  | none => none
  | some (w1, s1) =>
    match matchPlus isSpaceChar s1 with
    | none => some (w1, s1)
    | some (sp, s2) =>
      match matchPlus isWordChar s2 with
      | none => some (w1, s1)
      | some (w2, s3) => some (w1 ++ sp ++ w2, s3)

/-- `prescri\w+\s+(\w+)` attempted at the start of `s`. -/
def matchPrescribedAt (s : Str) : Option (Str × Str) := do
  let s ← matchLit (lit "prescri") s
  let (_, s) ← matchPlus isWordChar s
  let (_, s) ← matchPlus isSpaceChar s
  let (w, s) ← matchPlus isWordChar s
  return (w, s)

/-- `take\s+(\w+)` attempted at the start of `s`. -/
def matchTakeAt (s : Str) : Option (Str × Str) := do
  let s ← matchLit (lit "take") s
  let (_, s) ← matchPlus isSpaceChar s
  let (w, s) ← matchPlus isWordChar s
  return (w, s)

/-- `(\w+)\s+\d+\s*mg` attempted at the start of `s`. -/
def matchDosageAt (s : Str) : Option (Str × Str) := do
  let (w, s) ← matchPlus isWordChar s
  let (_, s) ← matchPlus isSpaceChar s
  let (_, s) ← matchPlus isDigitChar s
  let (_, s) := matchStar isSpaceChar s
  let s ← matchLit (lit "mg") s
  return (w, s)

/-- `diagnos\w+\s+with\s+(\w+(\s+\w+)?)` attempted at the start of `s`. -/
def matchDiagnosedAt (s : Str) : Option (Str × Str) := do
  let s ← matchLit (lit "diagnos") s
  let (_, s) ← matchPlus isWordChar s
  let (_, s) ← matchPlus isSpaceChar s
  let s ← matchLit (lit "with") s
  let (_, s) ← matchPlus isSpaceChar s
  captureTwoWords s

/-- `treat\w+\s+(\w+(\s+\w+)?)` attempted at the start of `s`. -/
def matchTreatAt (s : Str) : Option (Str × Str) := do
  let s ← matchLit (lit "treat") s
  let (_, s) ← matchPlus isWordChar s
  let (_, s) ← matchPlus isSpaceChar s
  captureTwoWords s

/-- `allerg\w+\s+to\s+(\w+(\s+\w+)?)` attempted at the start of `s`. -/
def matchAllergFreeAt (s : Str) : Option (Str × Str) :=
  match matchLit (lit "allerg") s with
  | none => none
  | some s1 =>
    match matchPlus isWordChar s1 with
    | none => none
    | some (_, s2) =>
      match matchPlus isSpaceChar s2 with
      | none => none
      | some (_, s3) =>
        match matchLit (lit "to") s3 with
        | none => none
        | some s4 =>
          match matchPlus isSpaceChar s4 with
          | none => none
          | some (_, s5) => captureTwoWords s5

/-- `allerg\w+\s+to\s+<allergen>` (the allergen inserted as a literal)
attempted at the start of `s`. -/
def matchAllergVocabAt (allergen : Str) (s : Str) : Option (Str × Str) := do
  let s ← matchLit (lit "allerg") s
  let (_, s) ← matchPlus isWordChar s
  let (_, s) ← matchPlus isSpaceChar s
  let s ← matchLit (lit "to") s
  let (_, s) ← matchPlus isSpaceChar s
  let s ← matchLit allergen s
  return (allergen, s)

/-- `(?:alt1|alt2):([^\.]+)` with `re.IGNORECASE` attempted at the start of
`s` (the three ingredient-list patterns of src/web_scraper.py). -/
def matchLabelledRunAt (alt1 alt2 : Str) (s : Str) : Option (Str × Str) := do
  let s ← match matchLitCI alt1 s with
          | some r => some r
          | none => matchLitCI alt2 s
  let s ← matchLit (lit ":") s
  let (cap, s) ← matchPlus (fun c => !(c == '.')) s
  return (cap, s)

/-- `re.findall`: scan left to right, at each position attempt the matcher;
on success record the capture and resume after the match (all matchers in
the sources consume at least one character, so fuel `length + 1` is exact). -/
def findAllAux (m : Str → Option (Str × Str)) : Nat → Str → List Str
  | 0, _ => []
  | fuel + 1, s =>
    match m s with
    | some (cap, rest) => cap :: findAllAux m fuel rest
    | none =>
      match s with
      | [] => []
      | _ :: t => findAllAux m fuel t

def findAll (m : Str → Option (Str × Str)) (s : Str) : List Str :=
  findAllAux m (s.length + 1) s

/-- `re.search(...) is not None`: does the pattern match at some position? -/
def reSearch (m : Str → Option (Str × Str)) : Str → Bool
  | [] => (m []).isSome
  | s@(_ :: t) => (m s).isSome || reSearch m t

/-!  ## Text miner (src/rag_engine.py)  -/

/-- `common_meds` of `extract_medications`. -/
def common_meds : List Str := [
  lit "warfarin", lit "coumadin", lit "atorvastatin", lit "lipitor", lit "simvastatin", lit "zocor",
  lit "lisinopril", lit "prinivil", lit "zestril", lit "metformin", lit "glucophage", lit "amlodipine",
  lit "norvasc", lit "metoprolol", lit "lopressor", lit "toprol", lit "losartan", lit "cozaar",
  lit "albuterol", lit "proventil", lit "ventolin", lit "omeprazole", lit "prilosec", lit "gabapentin",
  lit "neurontin", lit "hydrochlorothiazide", lit "levothyroxine", lit "synthroid", lit "amoxicillin",
  lit "penicillin", lit "aspirin", lit "ibuprofen", lit "acetaminophen", lit "tylenol", lit "advil",
  lit "insulin", lit "prednisone", lit "fluoxetine", lit "prozac", lit "sertraline", lit "zoloft",
  lit "furosemide", lit "lasix", lit "citalopram", lit "celexa", lit "montelukast", lit "singulair"]

/-- `non_meds` stop-word list of `extract_medications`. -/
def non_meds : List Str := [
  lit "the", lit "and", lit "with", lit "this", lit "your", lit "you", lit "for",
  lit "daily", lit "once", lit "twice", lit "day", lit "morning", lit "night"]

/-- `extract_medications` (src/rag_engine.py). -/
def extract_medications (text : Str) : List Str :=
  let medications := common_meds.filter (fun med => pyIn med text)
  let medications := medications ++ findAll matchPrescribedAt text
  let medications := medications ++ findAll matchTakeAt text
  let medications := medications ++ findAll matchDosageAt text
  let filtered_meds := medications.filter
    (fun med => !(non_meds.contains (lowerStr med)) && decide (2 < med.length))
  filtered_meds.dedup

/-- `common_conditions` of `extract_conditions`. -/
def common_conditions : List Str := [
  lit "diabetes", lit "hypertension", lit "high blood pressure", lit "high cholesterol",
  lit "heart disease", lit "asthma", lit "copd", lit "arthritis", lit "depression", lit "anxiety",
  lit "thyroid", lit "hypothyroidism", lit "hyperthyroidism", lit "gerd", lit "acid reflux",
  lit "migraine", lit "allergies", lit "gout", lit "kidney disease", lit "liver disease",
  lit "osteoporosis", lit "cancer", lit "epilepsy", lit "seizures", lit "parkinsons",
  lit "alzheimers", lit "celiac", lit "gluten", lit "lactose intolerance", lit "ibs",
  lit "crohns", lit "colitis", lit "fibromyalgia", lit "lupus", lit "psoriasis", lit "eczema"]

/-- `extract_conditions` (src/rag_engine.py). -/
def extract_conditions (text : Str) : List Str :=
  let conditions := common_conditions.filter (fun c => pyIn c text)
  let conditions := conditions ++ findAll matchDiagnosedAt text
  let conditions := conditions ++ findAll matchTreatAt text
  conditions.dedup

/-- `extract_allergies` (src/rag_engine.py): vocabulary hits (adjacency
pattern or literal phrase) followed by the free-form captures. -/
def extract_allergies (text : Str) : List Str :=
  let vocabHits := ALLERGIES.filter (fun allergy =>
    reSearch (matchAllergVocabAt allergy) text || pyIn (lit "allergic to " ++ allergy) text)
  let allergies := vocabHits ++ findAll matchAllergFreeAt text
  allergies.dedup

/-!  ## Restriction aggregator (src/rag_engine.py, analyze_prescription)  -/

/-- The findings dictionary returned by `analyze_prescription`. -/
structure Findings where
  medications : List Str
  conditions : List Str
  allergies : List Str
  restrictions : List Str
deriving DecidableEq

/-- The `try` body of `analyze_prescription` (src/rag_engine.py):
lower-case the text, run the three extractors, and union the
knowledge-base restrictions for the findings. -/
def analyze_prescription_body (prescription_text : Str) : Findings :=
  let text := lowerStr prescription_text
  let medications := extract_medications text
  let conditions := extract_conditions text
  let allergies := extract_allergies text
  let medication_restrictions := medications.flatMap (fun med => get_risky_foods_for_medication med)
  let condition_restrictions := conditions.flatMap (fun c => get_foods_to_avoid_for_condition c)
  let all_restrictions := (medication_restrictions ++ condition_restrictions ++ allergies).dedup
  ⟨medications, conditions, allergies, all_restrictions⟩

/-- The all-empty findings dictionary of the `except` clause. -/
def empty_findings : Findings := ⟨[], [], [], []⟩

/-- The `except` clause of `analyze_prescription`: any exception raised by
the body is swallowed and replaced by the all-empty findings. -/
def analyze_prescription_handler : Except String Findings → Findings
  | .ok f => f
  | .error _ => empty_findings

/-- `analyze_prescription` (src/rag_engine.py): the body wrapped in the
exception handler (the embedded body is total, so it enters as `ok`). -/
def analyze_prescription (prescription_text : Str) : Findings :=
  analyze_prescription_handler (Except.ok (analyze_prescription_body prescription_text))

/-!  ## Food info normalizer (src/web_scraper.py)  -/

/-- `common_ingredients` fallback vocabulary of `extract_ingredients_from_text`. -/
def common_ingredients : List Str := [
  lit "salt", lit "sugar", lit "water", lit "flour", lit "rice", lit "wheat", lit "corn", lit "dairy",
  lit "milk", lit "eggs", lit "soy", lit "nuts", lit "peanuts", lit "fish", lit "shellfish",
  lit "gluten", lit "wheat", lit "vegetable oil", lit "butter", lit "cheese"]

/-- `extract_ingredients_from_text` (src/web_scraper.py): the three
labelled-run patterns, comma-split, stripped and lower-cased; if nothing
matched, scan for the common-ingredient vocabulary; deduplicate. -/
def extract_ingredients_from_text (text : Str) : List Str :=
  let m1 := findAll (matchLabelledRunAt (lit "ingredients") (lit "contains")) text
  let m2 := findAll (matchLabelledRunAt (lit "made from") (lit "composed of")) text
  let m3 := findAll (matchLabelledRunAt (lit "ingredients include") (lit "contains")) text
  let ingredients := (m1 ++ m2 ++ m3).flatMap
    (fun run => (splitChar ',' run).map (fun item => lowerStr (pyStrip item)))
  let ingredients :=
    if ingredients.isEmpty then common_ingredients.filter (fun ing => pyIn ing (lowerStr text))
    else ingredients
  ingredients.dedup

/-- `extract_description` (src/web_scraper.py): split on double newlines;
if the resulting list is non-empty return its first element, otherwise the
first 200 characters with a truncation marker. -/
def extract_description (text : Str) : Str :=
  let paragraphs := splitPar text
  match paragraphs with
  | p :: _ => p
  | [] => text.take 200 ++ lit "..."

/-!  ## Safety evaluator (src/rag_engine.py, check_food_safety)  -/

/-- The slice of the food-information dictionary read by the evaluator
(`food_info["ingredients"]` and `food_info["description"]`; the remaining
keys are never read and are dropped from the model). -/
structure FoodInfo where
  ingredients : List Str
  description : Str
deriving DecidableEq

/-- The safety dictionary returned by `check_food_safety`. -/
structure Verdict where
  is_safe : Bool
  unsafe_ingredients : List Str
  recommendation : Str
  explanation : List Str
  food_info : FoodInfo
deriving DecidableEq

/-- The mutable local state of the evaluator loop: the `is_safe` flag and
the two accumulator lists. -/
structure CheckState where
  is_safe : Bool
  unsafe_ingredients : List Str
  explanation : List Str
deriving DecidableEq

/-- One firing site of the evaluator: when the condition holds, clear the
flag and append the offending item and its explanation. -/
def fireIf (cond : Bool) (item msg : Str) (st : CheckState) : CheckState :=
  if cond then
    { is_safe := false,
      unsafe_ingredients := st.unsafe_ingredients ++ [item],
      explanation := st.explanation ++ [msg] }
  else st

def restrictionsMsg (food_name : Str) : Str :=
  food_name ++ lit " is directly listed in your restrictions."

def interactMsg (ingredient : Str) : Str :=
  ingredient ++ lit " may interact with your health condition or medication."

def medicationMsg (risky_food medication : Str) : Str :=
  risky_food ++ lit " may interact with your medication " ++ medication ++ lit "."

def allergyMsg (allergy : Str) : Str :=
  allergy ++ lit " is listed in your allergies."

/-- Check 1: `food_name.lower() in [r.lower() for r in restrictions]`
(exact membership among the lower-cased restriction terms). -/
def checkNameListed (food_name : Str) (restr : List Str) (st : CheckState) : CheckState :=
  fireIf (decide (lowerStr food_name ∈ restr.map lowerStr)) food_name (restrictionsMsg food_name) st

/-- Check 2: every ingredient against every restriction term, bidirectional
case-insensitive substring containment. -/
def checkIngredients (ingredients restr : List Str) (st : CheckState) : CheckState :=
  ingredients.foldl (fun st ingredient =>
    restr.foldl (fun st restriction =>
      fireIf (pyIn (lowerStr restriction) (lowerStr ingredient) ||
              pyIn (lowerStr ingredient) (lowerStr restriction))
        ingredient (interactMsg ingredient) st) st) st

/-- Check 3: for every found medication, each knowledge-base risky food
against the food name or any ingredient (one-directional containment). -/
def checkMedications (food_name : Str) (ingredients meds : List Str) (st : CheckState) : CheckState :=
  meds.foldl (fun st medication =>
    (get_risky_foods_for_medication medication).foldl (fun st risky_food =>
      fireIf (pyIn (lowerStr risky_food) (lowerStr food_name) ||
              ingredients.any (fun ingredient => pyIn (lowerStr risky_food) (lowerStr ingredient)))
        risky_food (medicationMsg risky_food medication) st) st) st

/-- Check 4: every found allergy against the food name or any ingredient
(one-directional containment). -/
def checkAllergies (food_name : Str) (ingredients allergies : List Str) (st : CheckState) : CheckState :=
  allergies.foldl (fun st allergy =>
    fireIf (pyIn (lowerStr allergy) (lowerStr food_name) ||
            ingredients.any (fun ingredient => pyIn (lowerStr allergy) (lowerStr ingredient)))
      allergy (allergyMsg allergy) st) st

def safeRecommendation : Str := lit "This food appears to be safe for you to consume."

def unsafeRecommendation : Str := lit "This food may not be safe for you based on your prescription."

/-- The ingredient list the evaluator works with: `if not ingredients and
food_description`, append the ingredients extracted from the description
(the in-place `extend` of the source, visible through `food_info` because
the list is aliased). -/
def effectiveIngredients (food_info : FoodInfo) : List Str :=
  if food_info.ingredients.isEmpty && !food_info.description.isEmpty then
    food_info.ingredients ++ extract_ingredients_from_text food_info.description
  else food_info.ingredients

/-- The evaluator state before any check has run. -/
def initialState : CheckState := ⟨true, [], []⟩

/-- The evaluator state after the four checks have run in source order. -/
def evalState (food_name : Str) (ingredients : List Str) (restrictions : Findings) : CheckState :=
  checkAllergies food_name ingredients restrictions.allergies
    (checkMedications food_name ingredients restrictions.medications
      (checkIngredients ingredients restrictions.restrictions
        (checkNameListed food_name restrictions.restrictions initialState)))

/-- The `try` body of `check_food_safety` (src/rag_engine.py).  When the
ingredient list is empty and a description is present, the ingredients
extracted from the description are appended to the list aliased inside
`food_info` (the in-place `extend` of the source), which is why the
returned `food_info` carries the extended list in that case. -/
def check_food_safety_body (food_name : Str) (food_info : FoodInfo) (restrictions : Findings) : Verdict :=
  let ingredients := effectiveIngredients food_info
  let st4 := evalState food_name ingredients restrictions
  { is_safe := st4.is_safe,
    unsafe_ingredients := st4.unsafe_ingredients.dedup,
    recommendation := if st4.is_safe then safeRecommendation else unsafeRecommendation,
    explanation := st4.explanation.dedup,
    food_info := { food_info with ingredients := ingredients } }

def errorRecommendation : Str :=
  lit "Could not determine if this food is safe. Please consult with your doctor or pharmacist."

def errorExplanation : Str :=
  lit "An error occurred during analysis. Please try again or consult a healthcare professional."

/-- The `except` clause of `check_food_safety`: any exception raised by the
body is swallowed and replaced by the documented unsafe fallback verdict. -/
def check_food_safety_handler (r : Except String Verdict) (food_info : FoodInfo) : Verdict :=
  match r with
  | .ok v => v
  | .error _ =>
    { is_safe := false,
      unsafe_ingredients := [],
      recommendation := errorRecommendation,
      explanation := [errorExplanation],
      food_info := food_info }

/-- `check_food_safety` (src/rag_engine.py): the body wrapped in the
exception handler (the embedded body is total, so it enters as `ok`). -/
def check_food_safety (food_name : Str) (food_info : FoodInfo) (restrictions : Findings) : Verdict :=
  check_food_safety_handler (Except.ok (check_food_safety_body food_name food_info restrictions)) food_info

/-!  ## Supporting lemmas  -/

theorem char_toNat_ofNat (n : Nat) (hv : n.isValidChar) : (Char.ofNat n).toNat = n := by
  rw [Char.ofNat, dif_pos hv]
  simp [Char.ofNatAux, Char.toNat, UInt32.toNat, BitVec.toNat_ofNatLt]

/-- ASCII case folding is idempotent. -/
theorem lowerChar_idem (c : Char) : lowerChar (lowerChar c) = lowerChar c := by
  by_cases h : 65 ≤ c.toNat ∧ c.toNat ≤ 90
  · have hv : (c.toNat + 32).isValidChar := by left; omega
    have h1 : lowerChar c = Char.ofNat (c.toNat + 32) := by rw [lowerChar, if_pos h]
    have ht : (Char.ofNat (c.toNat + 32)).toNat = c.toNat + 32 := char_toNat_ofNat _ hv
    rw [h1, lowerChar, if_neg (by rw [ht]; omega)]
  · have h1 : lowerChar c = c := by rw [lowerChar, if_neg h]
    rw [h1, h1]

/-- Every character of a lower-cased string is fixed by case folding. -/
theorem lowerChar_of_mem_lowerStr {c : Char} {s : Str} (h : c ∈ lowerStr s) :
    lowerChar c = c := by
  rw [lowerStr] at h
  obtain ⟨d, _, rfl⟩ := List.mem_map.mp h
  exact lowerChar_idem d

/-- A string all of whose characters are fixed by case folding is itself
fixed by `lowerStr`. -/
theorem lowerStr_fixed_of_chars {s : Str} (h : ∀ c ∈ s, lowerChar c = c) :
    lowerStr s = s := by
  rw [lowerStr]
  rw [List.map_congr_left h]
  exact List.map_id' s

/-- `pyIn` is exactly substring (infix) containment. -/
theorem pyIn_eq_true_iff {a b : Str} : pyIn a b = true ↔ a <:+: b := by
  induction b with
  | nil => simp [pyIn, List.isEmpty_iff, List.infix_nil]
  | cons c t ih =>
    rw [pyIn, Bool.or_eq_true, List.isPrefixOf_iff_prefix, ih, List.infix_cons_iff]

theorem pyIn_trans {a b c : Str} (h1 : pyIn a b = true) (h2 : pyIn b c = true) :
    pyIn a c = true := by
  rw [pyIn_eq_true_iff] at h1 h2 ⊢
  exact h1.trans h2

/-- Substring containment survives case folding. -/
theorem pyIn_lowerStr {a b : Str} (h : pyIn a b = true) :
    pyIn (lowerStr a) (lowerStr b) = true := by
  rw [pyIn_eq_true_iff] at h ⊢
  exact h.map lowerChar

/-- Every food returned by the first-match lookup belongs to the union of
the food lists of all matching keys. -/
theorem firstMatchingFoods_subset_union {table : List (Str × List Str)} {m f : Str}
    (h : f ∈ firstMatchingFoods table m) :
    f ∈ (table.filter (fun p => fragMatch p.1 m)).flatMap Prod.snd := by
  induction table with
  | nil => simp [firstMatchingFoods] at h
  | cons p rest ih =>
    obtain ⟨key, foods⟩ := p
    rw [firstMatchingFoods] at h
    by_cases hm : fragMatch key m = true
    · rw [if_pos hm] at h
      rw [List.mem_flatMap]
      exact ⟨(key, foods), List.mem_filter.mpr ⟨List.mem_cons_self _ _, hm⟩, h⟩
    · rw [if_neg hm] at h
      have := ih h
      rw [List.mem_flatMap] at this ⊢
      obtain ⟨q, hq, hf⟩ := this
      exact ⟨q, List.mem_filter.mpr ⟨List.mem_cons_of_mem _ (List.mem_filter.mp hq).1,
        (List.mem_filter.mp hq).2⟩, hf⟩

/-- When every food list of the table is non-empty, the first-match lookup
returns the empty list exactly when no key matches. -/
theorem firstMatchingFoods_eq_nil_iff {table : List (Str × List Str)} {m : Str}
    (hnil : ∀ p ∈ table, p.2 ≠ ([] : List Str)) :
    firstMatchingFoods table m = [] ↔ ∀ p ∈ table, fragMatch p.1 m = false := by
  induction table with
  | nil => simp [firstMatchingFoods]
  | cons p rest ih =>
    obtain ⟨key, foods⟩ := p
    rw [firstMatchingFoods]
    by_cases hm : fragMatch key m = true
    · rw [if_pos hm]
      constructor
      · intro h
        exact absurd h (hnil (key, foods) (List.mem_cons_self _ _))
      · intro h
        have := h (key, foods) (List.mem_cons_self _ _)
        rw [hm] at this
        exact absurd this (by simp)
    · rw [if_neg hm]
      have ih' := ih (fun q hq => hnil q (List.mem_cons_of_mem _ hq))
      rw [ih']
      constructor
      · intro h q hq
        rcases List.mem_cons.mp hq with rfl | hq'
        · exact Bool.eq_false_iff.mpr hm
        · exact h q hq'
      · intro h q hq
        exact h q (List.mem_cons_of_mem _ hq)

/-- The spec-side union is empty exactly when no key matches (given
non-empty food lists). -/
theorem filterUnion_eq_nil_iff {table : List (Str × List Str)} {m : Str}
    (hnil : ∀ p ∈ table, p.2 ≠ ([] : List Str)) :
    (table.filter (fun p => fragMatch p.1 m)).flatMap Prod.snd = [] ↔
      ∀ p ∈ table, fragMatch p.1 m = false := by
  rw [List.flatMap_eq_nil_iff]
  constructor
  · intro h q hq
    by_cases hm : fragMatch q.1 m = true
    · exact absurd (h q (List.mem_filter.mpr ⟨hq, hm⟩)) (hnil q hq)
    · exact Bool.eq_false_iff.mpr hm
  · intro h q hq
    have := h q (List.mem_filter.mp hq).1
    have h2 := (List.mem_filter.mp hq).2
    rw [this] at h2
    exact absurd h2 (by simp)

theorem interactions_foods_ne_nil : ∀ p ∈ INTERACTIONS, p.2 ≠ ([] : List Str) := by decide

theorem conditions_foods_ne_nil : ∀ p ∈ CONDITIONS, p.2 ≠ ([] : List Str) := by decide

/-!  ## Claim C1  -/

/-- Claim C1, counterexample: for the medication name "warfarin statins"
both the "warfarin" and the "statins" keys match, so the union demanded by
the claim contains "grapefruit juice", but the source lookup returns only
the first matching key's foods, which do not contain it.  The claim as
stated is therefore false. -/
theorem claim_C1_counterexample :
    lit "grapefruit juice" ∈ risky_foods_spec (lit "warfarin statins") ∧
    lit "grapefruit juice" ∉ get_risky_foods_for_medication (lit "warfarin statins") := by
  decide

/-- Claim C1 (amended): for every medication and condition name, the
knowledge-base lookups return the food list of the FIRST key matching the
query under case-insensitive bidirectional substring containment (and the
empty list when no key matches; the embedded functions are total, so no
exception is ever raised).  The result is always a subset of the union
over all matching keys that the claim demanded, and it is empty exactly
when that union is empty. -/
theorem claim_C1_amended (name : Str) :
    (∀ f ∈ get_risky_foods_for_medication name, f ∈ risky_foods_spec name) ∧
    (get_risky_foods_for_medication name = [] ↔ risky_foods_spec name = []) ∧
    (∀ f ∈ get_foods_to_avoid_for_condition name, f ∈ avoided_foods_spec name) ∧
    (get_foods_to_avoid_for_condition name = [] ↔ avoided_foods_spec name = []) := by
  refine ⟨?_, ?_, ?_, ?_⟩
  · intro f hf
    rw [get_risky_foods_for_medication] at hf
    rw [risky_foods_spec]
    exact firstMatchingFoods_subset_union hf
  · rw [get_risky_foods_for_medication, risky_foods_spec,
      firstMatchingFoods_eq_nil_iff interactions_foods_ne_nil,
      filterUnion_eq_nil_iff interactions_foods_ne_nil]
  · intro f hf
    rw [get_foods_to_avoid_for_condition] at hf
    rw [avoided_foods_spec]
    exact firstMatchingFoods_subset_union hf
  · rw [get_foods_to_avoid_for_condition, avoided_foods_spec,
      firstMatchingFoods_eq_nil_iff conditions_foods_ne_nil,
      filterUnion_eq_nil_iff conditions_foods_ne_nil]

/-- Witness for the amended claim C1 at the concrete name "warfarin". -/
theorem claim_C1_amended_witness :
    lit "cranberries" ∈ risky_foods_spec (lit "warfarin") :=
  (claim_C1_amended (lit "warfarin")).1 (lit "cranberries") (by decide)

/-!  ## Claim C2  -/

/-- Claim C2, counterexample: "statins" is a substring of
"warfarin statins", yet the two lookups return different (both non-empty)
sets: the first matching key is "statins" for the former but "warfarin"
for the latter, and only the former's foods contain "grapefruit juice".
The claim as stated is therefore false. -/
theorem claim_C2_counterexample :
    pyIn (lit "statins") (lit "warfarin statins") = true ∧
    lit "grapefruit juice" ∈ get_risky_foods_for_medication (lit "statins") ∧
    lit "grapefruit juice" ∉ get_risky_foods_for_medication (lit "warfarin statins") ∧
    get_risky_foods_for_medication (lit "statins") ≠
      get_risky_foods_for_medication (lit "warfarin statins") := by
  decide

/-- Claim C2 (amended): for all medication names m1 and m2 such that m1 is
a substring of m2, if some interaction-table key is a substring of the
lower-cased m1, then `get_risky_foods_for_medication` returns a non-empty
list for both (the two lists may nevertheless differ, as the
counterexample shows). -/
theorem claim_C2_amended (m1 m2 : Str) (h12 : pyIn m1 m2 = true)
    (hkey : ∃ p ∈ INTERACTIONS, pyIn p.1 (lowerStr m1) = true) :
    get_risky_foods_for_medication m1 ≠ [] ∧ get_risky_foods_for_medication m2 ≠ [] := by
  obtain ⟨p, hp, hin⟩ := hkey
  have h1 : fragMatch p.1 (lowerStr m1) = true := by
    rw [fragMatch, Bool.or_eq_true]
    exact Or.inl hin
  have hin2 : pyIn p.1 (lowerStr m2) = true := pyIn_trans hin (pyIn_lowerStr h12)
  have h2 : fragMatch p.1 (lowerStr m2) = true := by
    rw [fragMatch, Bool.or_eq_true]
    exact Or.inl hin2
  constructor
  · rw [get_risky_foods_for_medication]
    intro hnil
    have := (firstMatchingFoods_eq_nil_iff interactions_foods_ne_nil).mp hnil p hp
    rw [h1] at this
    exact absurd this (by simp)
  · rw [get_risky_foods_for_medication]
    intro hnil
    have := (firstMatchingFoods_eq_nil_iff interactions_foods_ne_nil).mp hnil p hp
    rw [h2] at this
    exact absurd this (by simp)

/-- Witness for the amended claim C2 at m1 = "statins", m2 = "warfarin
statins". -/
theorem claim_C2_amended_witness :
    get_risky_foods_for_medication (lit "statins") ≠ [] ∧
    get_risky_foods_for_medication (lit "warfarin statins") ≠ [] :=
  claim_C2_amended (lit "statins") (lit "warfarin statins") (by decide)
    ⟨(lit "statins", [lit "grapefruit", lit "grapefruit juice"]), by decide, by decide⟩

/-!  ## Claim C9  -/

/-- Claim C9: the empty prescription text yields findings whose
medication, condition and allergy sets are all empty and whose restriction
set is empty (and the embedded function is total, so no error is raised). -/
theorem claim_C9 : analyze_prescription (lit "") = empty_findings := by decide

/-!  ## Evaluator state lemmas  -/

/-- `st'` is reachable from `st` by evaluator checks: the accumulator
lists only grow, the flag never returns to safe, and a final safe flag
forces the state to be unchanged. -/
def StateExtends (st st' : CheckState) : Prop :=
  (∃ u, st'.unsafe_ingredients = st.unsafe_ingredients ++ u) ∧
  (∃ e, st'.explanation = st.explanation ++ e) ∧
  (st.is_safe = false → st'.is_safe = false) ∧
  (st'.is_safe = true → st' = st)

theorem stateExtends_refl (st : CheckState) : StateExtends st st :=
  ⟨⟨[], by simp⟩, ⟨[], by simp⟩, fun h => h, fun _ => rfl⟩

theorem stateExtends_trans {a b c : CheckState}
    (h1 : StateExtends a b) (h2 : StateExtends b c) : StateExtends a c := by
  obtain ⟨⟨u1, hu1⟩, ⟨e1, he1⟩, hf1, ht1⟩ := h1
  obtain ⟨⟨u2, hu2⟩, ⟨e2, he2⟩, hf2, ht2⟩ := h2
  refine ⟨⟨u1 ++ u2, ?_⟩, ⟨e1 ++ e2, ?_⟩, fun h => hf2 (hf1 h), fun h => ?_⟩
  · rw [hu2, hu1, List.append_assoc]
  · rw [he2, he1, List.append_assoc]
  · have hcb : c = b := ht2 h
    have hb : b.is_safe = true := by rw [← hcb]; exact h
    rw [hcb, ht1 hb]

theorem fireIf_extends (cond : Bool) (item msg : Str) (st : CheckState) :
    StateExtends st (fireIf cond item msg st) := by
  cases cond with
  | false => rw [fireIf, if_neg (by simp)]; exact stateExtends_refl st
  | true =>
    rw [fireIf, if_pos rfl]
    exact ⟨⟨[item], rfl⟩, ⟨[msg], rfl⟩, fun _ => rfl, fun h => absurd h (by simp)⟩

theorem foldl_extends {α : Type} (f : CheckState → α → CheckState)
    (hf : ∀ st x, StateExtends st (f st x)) :
    ∀ (l : List α) (st : CheckState), StateExtends st (l.foldl f st) := by
  intro l
  induction l with
  | nil => intro st; exact stateExtends_refl st
  | cons x xs ih =>
    intro st
    rw [List.foldl_cons]
    exact stateExtends_trans (hf st x) (ih (f st x))

theorem checkNameListed_extends (food_name : Str) (restr : List Str) (st : CheckState) :
    StateExtends st (checkNameListed food_name restr st) :=
  fireIf_extends _ _ _ st

theorem checkIngredients_extends (ingredients restr : List Str) (st : CheckState) :
    StateExtends st (checkIngredients ingredients restr st) :=
  foldl_extends _ (fun st _ => foldl_extends _ (fun st _ => fireIf_extends _ _ _ st) restr st)
    ingredients st

theorem checkMedications_extends (food_name : Str) (ingredients meds : List Str) (st : CheckState) :
    StateExtends st (checkMedications food_name ingredients meds st) :=
  foldl_extends _ (fun st med =>
    foldl_extends _ (fun st _ => fireIf_extends _ _ _ st)
      (get_risky_foods_for_medication med) st) meds st

theorem checkAllergies_extends (food_name : Str) (ingredients allergies : List Str) (st : CheckState) :
    StateExtends st (checkAllergies food_name ingredients allergies st) :=
  foldl_extends _ (fun st _ => fireIf_extends _ _ _ st) allergies st

/-- The state after check 1 extends to the final evaluator state. -/
theorem evalState_extends_after_check1 (food_name : Str) (ingredients : List Str)
    (restrictions : Findings) :
    StateExtends (checkNameListed food_name restrictions.restrictions initialState)
      (evalState food_name ingredients restrictions) := by
  rw [evalState]
  exact stateExtends_trans (checkIngredients_extends _ _ _)
    (stateExtends_trans (checkMedications_extends _ _ _ _) (checkAllergies_extends _ _ _ _))

/-- The initial state extends to the final evaluator state. -/
theorem evalState_extends (food_name : Str) (ingredients : List Str) (restrictions : Findings) :
    StateExtends initialState (evalState food_name ingredients restrictions) :=
  stateExtends_trans (checkNameListed_extends _ _ _)
    (evalState_extends_after_check1 food_name ingredients restrictions)

theorem check_food_safety_is_safe_eq (food_name : Str) (food_info : FoodInfo) (restrictions : Findings) :
    (check_food_safety food_name food_info restrictions).is_safe =
      (evalState food_name (effectiveIngredients food_info) restrictions).is_safe := rfl

theorem check_food_safety_unsafe_eq (food_name : Str) (food_info : FoodInfo) (restrictions : Findings) :
    (check_food_safety food_name food_info restrictions).unsafe_ingredients =
      (evalState food_name (effectiveIngredients food_info) restrictions).unsafe_ingredients.dedup := rfl

theorem check_food_safety_explanation_eq (food_name : Str) (food_info : FoodInfo) (restrictions : Findings) :
    (check_food_safety food_name food_info restrictions).explanation =
      (evalState food_name (effectiveIngredients food_info) restrictions).explanation.dedup := rfl

theorem check_food_safety_recommendation_eq (food_name : Str) (food_info : FoodInfo) (restrictions : Findings) :
    (check_food_safety food_name food_info restrictions).recommendation =
      (if (evalState food_name (effectiveIngredients food_info) restrictions).is_safe then
        safeRecommendation else unsafeRecommendation) := rfl

theorem check_food_safety_food_info_eq (food_name : Str) (food_info : FoodInfo) (restrictions : Findings) :
    (check_food_safety food_name food_info restrictions).food_info =
      { food_info with ingredients := effectiveIngredients food_info } := rfl

/-!  ## Claim C3  -/

/-- Claim C3, counterexample: the food name "grapefruits" matches the
restriction term "grapefruit" under bidirectional substring containment,
yet the verdict is safe with nothing recorded: the source compares the
food name by exact (case-insensitive) equality, not by containment.  The
claim as stated is therefore false. -/
theorem claim_C3_counterexample :
    (pyIn (lowerStr (lit "grapefruit")) (lowerStr (lit "grapefruits")) ||
     pyIn (lowerStr (lit "grapefruits")) (lowerStr (lit "grapefruit"))) = true ∧
    (check_food_safety (lit "grapefruits") ⟨[], lit ""⟩ ⟨[], [], [], [lit "grapefruit"]⟩).is_safe = true ∧
    (check_food_safety (lit "grapefruits") ⟨[], lit ""⟩ ⟨[], [], [], [lit "grapefruit"]⟩).unsafe_ingredients = [] ∧
    (check_food_safety (lit "grapefruits") ⟨[], lit ""⟩ ⟨[], [], [], [lit "grapefruit"]⟩).explanation = [] := by
  decide

/-- Claim C3 (amended): if the lower-cased food name is EQUAL to the
lower-casing of some term of the restriction set (exact membership, the
source's check, rather than the claim's bidirectional substring
containment), then the verdict is marked unsafe, the food name is recorded
as an offending item, and the explanation "X is directly listed in your
restrictions." is emitted. -/
theorem claim_C3_amended (food_name : Str) (food_info : FoodInfo) (restrictions : Findings)
    (h : lowerStr food_name ∈ restrictions.restrictions.map lowerStr) :
    (check_food_safety food_name food_info restrictions).is_safe = false ∧
    food_name ∈ (check_food_safety food_name food_info restrictions).unsafe_ingredients ∧
    restrictionsMsg food_name ∈ (check_food_safety food_name food_info restrictions).explanation := by
  have hst1 : checkNameListed food_name restrictions.restrictions initialState =
      ⟨false, [food_name], [restrictionsMsg food_name]⟩ := by
    rw [checkNameListed, fireIf, if_pos (decide_eq_true h)]
    rfl
  have hext := evalState_extends_after_check1 food_name (effectiveIngredients food_info) restrictions
  rw [hst1] at hext
  obtain ⟨⟨u, hu⟩, ⟨e, he⟩, hfalse, _⟩ := hext
  refine ⟨?_, ?_, ?_⟩
  · rw [check_food_safety_is_safe_eq]
    exact hfalse rfl
  · rw [check_food_safety_unsafe_eq, List.mem_dedup, hu]
    exact List.mem_append_left _ (List.mem_singleton_self _)
  · rw [check_food_safety_explanation_eq, List.mem_dedup, he]
    exact List.mem_append_left _ (List.mem_singleton_self _)

/-- Witness for the amended claim C3 at the food name "Grapefruit" against
the restriction term "grapefruit". -/
theorem claim_C3_amended_witness :
    (check_food_safety (lit "Grapefruit") ⟨[], lit ""⟩ ⟨[], [], [], [lit "grapefruit"]⟩).is_safe = false ∧
    lit "Grapefruit" ∈
      (check_food_safety (lit "Grapefruit") ⟨[], lit ""⟩ ⟨[], [], [], [lit "grapefruit"]⟩).unsafe_ingredients ∧
    restrictionsMsg (lit "Grapefruit") ∈
      (check_food_safety (lit "Grapefruit") ⟨[], lit ""⟩ ⟨[], [], [], [lit "grapefruit"]⟩).explanation :=
  claim_C3_amended (lit "Grapefruit") ⟨[], lit ""⟩ ⟨[], [], [], [lit "grapefruit"]⟩ (by decide)

/-!  ## Claim C10  -/

/-- Claim C10: on the normal (non-fault) path of the evaluator, a safe
verdict carries empty offending-item and explanation collections and the
fixed safe recommendation sentence, and an unsafe verdict carries the
fixed unsafe recommendation sentence. -/
theorem claim_C10 (food_name : Str) (food_info : FoodInfo) (restrictions : Findings) :
    ((check_food_safety food_name food_info restrictions).is_safe = true →
      (check_food_safety food_name food_info restrictions).unsafe_ingredients = [] ∧
      (check_food_safety food_name food_info restrictions).explanation = [] ∧
      (check_food_safety food_name food_info restrictions).recommendation = safeRecommendation) ∧
    ((check_food_safety food_name food_info restrictions).is_safe = false →
      (check_food_safety food_name food_info restrictions).recommendation = unsafeRecommendation) := by
  have hext := evalState_extends food_name (effectiveIngredients food_info) restrictions
  constructor
  · intro h
    rw [check_food_safety_is_safe_eq] at h
    have hinit : evalState food_name (effectiveIngredients food_info) restrictions = initialState :=
      hext.2.2.2 h
    refine ⟨?_, ?_, ?_⟩
    · rw [check_food_safety_unsafe_eq, hinit]
      rfl
    · rw [check_food_safety_explanation_eq, hinit]
      rfl
    · rw [check_food_safety_recommendation_eq, h, if_pos rfl]
  · intro h
    rw [check_food_safety_is_safe_eq] at h
    rw [check_food_safety_recommendation_eq, h]
    rfl

/-!  ## Claim C5  -/

/-- Claim C5, counterexample: "shellfish" is NOT among the allergies
extracted from "I am allergic to peanuts and shellfish": the vocabulary
adjacency pattern requires the allergen to follow "to" immediately, and
the free-form capture takes at most two words, yielding "peanuts and".
The claim as stated is therefore false. -/
theorem claim_C5_counterexample :
    lit "shellfish" ∉ extract_allergies (lit "I am allergic to peanuts and shellfish") := by
  decide

/-- Claim C5 (amended): `extract_allergies` applied to "I am allergic to
peanuts and shellfish" returns a set containing "peanuts" (the vocabulary
hit) and the free-form two-word capture "peanuts and", but not
"shellfish". -/
theorem claim_C5_amended :
    lit "peanuts" ∈ extract_allergies (lit "I am allergic to peanuts and shellfish") ∧
    lit "peanuts and" ∈ extract_allergies (lit "I am allergic to peanuts and shellfish") ∧
    lit "shellfish" ∉ extract_allergies (lit "I am allergic to peanuts and shellfish") := by
  decide

/-!  ## Claim C6  -/

/-- Splitting on double newlines never yields the empty list, so the
truncation branch of `extract_description` is unreachable. -/
theorem splitPar_ne_nil (text : Str) : splitPar text ≠ [] := by
  rw [splitPar.eq_def]
  split
  · simp
  · split <;> simp
  · simp

/-- Claim C6 is refuted by the code as written: the split of the source
always yields a non-empty list, so `extract_description` always returns
the first element and the documented first-200-characters truncation
branch is dead code.  On the break-free text "hello" the code returns
"hello", not the "hello..." the claim requires. -/
theorem claim_C6 :
    (∀ text : Str, splitPar text ≠ []) ∧
    extract_description (lit "hello") = lit "hello" ∧
    lit "hello" ≠ (lit "hello").take 200 ++ lit "..." := by
  refine ⟨splitPar_ne_nil, by decide, by decide⟩

/-!  ## Claim C7  -/

/-- Claim C7, counterexample: when the ingredient list is empty and a
description is present, the source's in-place `extend` mutates the list
aliased inside `food_info`, so the `food_info` carried by the verdict
differs from the argument.  The claim as stated is therefore false. -/
theorem claim_C7_counterexample :
    (check_food_safety (lit "tea") ⟨[], lit "contains: milk."⟩ empty_findings).food_info ≠
      (⟨[], lit "contains: milk."⟩ : FoodInfo) := by
  decide

/-- Claim C7 (amended): `check_food_safety` leaves `food_info` unchanged
whenever its ingredient list is non-empty or its description is empty;
when the ingredient list is empty and a description is present, the
ingredients extracted from the description are appended in place, so the
returned `food_info` carries exactly the extracted list. -/
theorem claim_C7_amended (food_name : Str) (food_info : FoodInfo) (restrictions : Findings) :
    (¬(food_info.ingredients = [] ∧ food_info.description ≠ []) →
      (check_food_safety food_name food_info restrictions).food_info = food_info) ∧
    (food_info.ingredients = [] → food_info.description ≠ [] →
      (check_food_safety food_name food_info restrictions).food_info =
        ⟨extract_ingredients_from_text food_info.description, food_info.description⟩) := by
  have hcond : (food_info.ingredients.isEmpty && !food_info.description.isEmpty) = true ↔
      (food_info.ingredients = [] ∧ food_info.description ≠ []) := by
    simp [List.isEmpty_iff]
  constructor
  · intro h
    rw [check_food_safety_food_info_eq, effectiveIngredients,
      if_neg (fun hb => h (hcond.mp hb))]
  · intro h1 h2
    rw [check_food_safety_food_info_eq, effectiveIngredients,
      if_pos (hcond.mpr ⟨h1, h2⟩), h1, List.nil_append]

/-- Witness for the amended claim C7: an untouched run and a mutating
run at concrete inputs. -/
theorem claim_C7_amended_witness :
    (check_food_safety (lit "tea") ⟨[lit "water"], lit ""⟩ empty_findings).food_info =
      (⟨[lit "water"], lit ""⟩ : FoodInfo) ∧
    (check_food_safety (lit "tea") ⟨[], lit "contains: milk."⟩ empty_findings).food_info =
      ⟨extract_ingredients_from_text (lit "contains: milk."), lit "contains: milk."⟩ :=
  ⟨(claim_C7_amended (lit "tea") ⟨[lit "water"], lit ""⟩ empty_findings).1 (by decide),
   (claim_C7_amended (lit "tea") ⟨[], lit "contains: milk."⟩ empty_findings).2 rfl (by decide)⟩

/-!  ## Claim C8  -/

/-- Claim C8: both entry points route through an exception handler, so the
embedded functions are total and no error reaches the caller; an error in
`analyze_prescription` yields the all-empty findings, and an error in
`check_food_safety` yields a verdict marked unsafe whose recommendation is
the fixed consult-a-professional sentence (in particular it is never the
safe sentence, so an uncertain result is never reported as safe). -/
theorem claim_C8 (e : String) (prescription_text food_name : Str)
    (food_info : FoodInfo) (restrictions : Findings) :
    analyze_prescription prescription_text =
      analyze_prescription_handler (Except.ok (analyze_prescription_body prescription_text)) ∧
    analyze_prescription_handler (Except.error e) = empty_findings ∧
    check_food_safety food_name food_info restrictions =
      check_food_safety_handler
        (Except.ok (check_food_safety_body food_name food_info restrictions)) food_info ∧
    (check_food_safety_handler (Except.error e) food_info).is_safe = false ∧
    (check_food_safety_handler (Except.error e) food_info).recommendation = errorRecommendation ∧
    errorRecommendation ≠ safeRecommendation := by
  exact ⟨rfl, rfl, rfl, rfl, rfl, by decide⟩

/-!  ## Character provenance of regex captures (for claim C4)  -/

theorem matchLit_subset {pat s rest : Str} (h : matchLit pat s = some rest) : rest ⊆ s := by
  rw [matchLit] at h
  split at h
  · simp only [Option.some.injEq] at h
    rw [← h]
    exact (List.drop_sublist _ _).subset
  · exact absurd h (by simp)

theorem matchPlus_subset {p : Char → Bool} {s cap rest : Str}
    (h : matchPlus p s = some (cap, rest)) : cap ⊆ s ∧ rest ⊆ s := by
  cases hw : s.takeWhile p with
  | nil => rw [matchPlus, hw] at h; exact absurd h (by simp)
  | cons c cs =>
    rw [matchPlus, hw] at h
    simp only [Option.some.injEq, Prod.mk.injEq] at h
    obtain ⟨h1, h2⟩ := h
    constructor
    · rw [← h1, ← hw]
      exact (List.takeWhile_sublist p).subset
    · rw [← h2]
      exact (List.dropWhile_sublist p).subset

theorem captureTwoWords_subset {s cap rest : Str}
    (h : captureTwoWords s = some (cap, rest)) : cap ⊆ s ∧ rest ⊆ s := by
  rw [captureTwoWords] at h
  cases h1 : matchPlus isWordChar s with
  | none => simp only [h1] at h; exact Option.noConfusion h
  | some pr1 =>
    obtain ⟨w1, s1⟩ := pr1
    have hw1 := matchPlus_subset h1
    simp only [h1] at h
    cases h2 : matchPlus isSpaceChar s1 with
    | none =>
      simp only [h2, Option.some.injEq, Prod.mk.injEq] at h
      obtain ⟨hc, hr⟩ := h
      exact ⟨by rw [← hc]; exact hw1.1, by rw [← hr]; exact hw1.2⟩
    | some pr2 =>
      obtain ⟨sp, s2⟩ := pr2
      have hsp := matchPlus_subset h2
      simp only [h2] at h
      cases h3 : matchPlus isWordChar s2 with
      | none =>
        simp only [h3, Option.some.injEq, Prod.mk.injEq] at h
        obtain ⟨hc, hr⟩ := h
        exact ⟨by rw [← hc]; exact hw1.1, by rw [← hr]; exact hw1.2⟩
      | some pr3 =>
        obtain ⟨w2, s3⟩ := pr3
        have hw2 := matchPlus_subset h3
        simp only [h3, Option.some.injEq, Prod.mk.injEq] at h
        obtain ⟨hc, hr⟩ := h
        constructor
        · rw [← hc]
          intro c hcc
          rcases List.mem_append.mp hcc with hin | hin
          · rcases List.mem_append.mp hin with hin2 | hin2
            · exact hw1.1 hin2
            · exact hw1.2 (hsp.1 hin2)
          · exact hw1.2 (hsp.2 (hw2.1 hin))
        · rw [← hr]
          exact fun c hcc => hw1.2 (hsp.2 (hw2.2 hcc))

theorem matchAllergFreeAt_subset {s cap rest : Str}
    (h : matchAllergFreeAt s = some (cap, rest)) : cap ⊆ s ∧ rest ⊆ s := by
  rw [matchAllergFreeAt] at h
  cases h1 : matchLit (lit "allerg") s with
  | none => simp only [h1] at h; exact Option.noConfusion h
  | some s1 =>
    have hs1 := matchLit_subset h1
    simp only [h1] at h
    cases h2 : matchPlus isWordChar s1 with
    | none => simp only [h2] at h; exact Option.noConfusion h
    | some pr2 =>
      obtain ⟨w2, s2⟩ := pr2
      have hs2 := matchPlus_subset h2
      simp only [h2] at h
      cases h3 : matchPlus isSpaceChar s2 with
      | none => simp only [h3] at h; exact Option.noConfusion h
      | some pr3 =>
        obtain ⟨w3, s3⟩ := pr3
        have hs3 := matchPlus_subset h3
        simp only [h3] at h
        cases h4 : matchLit (lit "to") s3 with
        | none => simp only [h4] at h; exact Option.noConfusion h
        | some s4 =>
          have hs4 := matchLit_subset h4
          simp only [h4] at h
          cases h5 : matchPlus isSpaceChar s4 with
          | none => simp only [h5] at h; exact Option.noConfusion h
          | some pr5 =>
            obtain ⟨w5, s5⟩ := pr5
            have hs5 := matchPlus_subset h5
            simp only [h5] at h
            have hcw := captureTwoWords_subset h
            have hchain : s5 ⊆ s :=
              fun c hc => hs1 (hs2.2 (hs3.2 (hs4 (hs5.2 hc))))
            exact ⟨fun c hc => hchain (hcw.1 hc), fun c hc => hchain (hcw.2 hc)⟩

theorem findAllAux_succ (m : Str → Option (Str × Str)) (n : Nat) (s : Str) :
    findAllAux m (n + 1) s =
      match m s with
      | some (cap, rest) => cap :: findAllAux m n rest
      | none =>
        match s with
        | [] => []
        | _ :: t => findAllAux m n t := rfl

/-- Every capture produced by `findAllAux` consists of characters of the
scanned string, provided the matcher's captures and rests do. -/
theorem findAllAux_subset {m : Str → Option (Str × Str)}
    (hm : ∀ s cap rest, m s = some (cap, rest) → cap ⊆ s ∧ rest ⊆ s) :
    ∀ (fuel : Nat) (s cap : Str), cap ∈ findAllAux m fuel s → cap ⊆ s := by
  intro fuel
  induction fuel with
  | zero => intro s cap h; simp [findAllAux] at h
  | succ n ih =>
    intro s cap h
    rw [findAllAux_succ] at h
    cases hm1 : m s with
    | some pr =>
      obtain ⟨c1, rest⟩ := pr
      simp only [hm1] at h
      rcases List.mem_cons.mp h with heq | hmem
      · rw [heq]
        exact (hm s c1 rest hm1).1
      · exact fun c hc => (hm s c1 rest hm1).2 ((ih rest cap hmem) hc)
    | none =>
      simp only [hm1] at h
      cases s with
      | nil => simp at h
      | cons a t =>
        exact fun c hc => List.mem_cons_of_mem a ((ih t cap h) hc)

/-- Every allergy returned by `extract_allergies` is either a vocabulary
allergen or a free-form capture drawn from the characters of the text. -/
theorem extract_allergies_mem {text a : Str} (ha : a ∈ extract_allergies text) :
    a ∈ ALLERGIES ∨ a ⊆ text := by
  have heq : extract_allergies text =
      (ALLERGIES.filter (fun allergy =>
        reSearch (matchAllergVocabAt allergy) text ||
        pyIn (lit "allergic to " ++ allergy) text) ++
       findAll matchAllergFreeAt text).dedup := rfl
  rw [heq, List.mem_dedup] at ha
  rcases List.mem_append.mp ha with h | h
  · exact Or.inl (List.mem_filter.mp h).1
  · rw [findAll] at h
    exact Or.inr (findAllAux_subset (fun s cap rest hh => matchAllergFreeAt_subset hh) _ _ _ h)

theorem interactions_values_lower_fixed :
    ∀ p ∈ INTERACTIONS, ∀ f ∈ p.2, lowerStr f = f := by decide

theorem conditions_values_lower_fixed :
    ∀ p ∈ CONDITIONS, ∀ f ∈ p.2, lowerStr f = f := by decide

theorem allergies_vocab_lower_fixed : ∀ a ∈ ALLERGIES, lowerStr a = a := by decide

/-- Every food returned by the first-match lookup is a value of the table. -/
theorem firstMatchingFoods_mem_values {table : List (Str × List Str)} {m f : Str}
    (h : f ∈ firstMatchingFoods table m) : ∃ p ∈ table, f ∈ p.2 := by
  have hu := firstMatchingFoods_subset_union h
  rw [List.mem_flatMap] at hu
  obtain ⟨p, hp, hf⟩ := hu
  exact ⟨p, (List.mem_filter.mp hp).1, hf⟩

theorem analyze_restrictions_eq (t : Str) :
    (analyze_prescription t).restrictions =
      ((extract_medications (lowerStr t)).flatMap (fun med => get_risky_foods_for_medication med) ++
       (extract_conditions (lowerStr t)).flatMap (fun c => get_foods_to_avoid_for_condition c) ++
       extract_allergies (lowerStr t)).dedup := rfl

/-- Every restriction term produced by `analyze_prescription` is fixed by
case folding: knowledge-base foods are lower-case literals, vocabulary
allergens are lower-case literals, and free-form captures are drawn from
the lower-cased prescription text. -/
theorem analyze_restrictions_lower_fixed (t : Str) :
    ∀ r ∈ (analyze_prescription t).restrictions, lowerStr r = r := by
  intro r hr
  rw [analyze_restrictions_eq, List.mem_dedup] at hr
  rcases List.mem_append.mp hr with h | h
  · rcases List.mem_append.mp h with h1 | h1
    · rw [List.mem_flatMap] at h1
      obtain ⟨med, _, hf⟩ := h1
      rw [get_risky_foods_for_medication] at hf
      obtain ⟨p, hp, hfp⟩ := firstMatchingFoods_mem_values hf
      exact interactions_values_lower_fixed p hp r hfp
    · rw [List.mem_flatMap] at h1
      obtain ⟨c, _, hf⟩ := h1
      rw [get_foods_to_avoid_for_condition] at hf
      obtain ⟨p, hp, hfp⟩ := firstMatchingFoods_mem_values hf
      exact conditions_values_lower_fixed p hp r hfp
  · rcases extract_allergies_mem h with hv | hsub
    · exact allergies_vocab_lower_fixed r hv
    · exact lowerStr_fixed_of_chars (fun c hc => lowerChar_of_mem_lowerStr (hsub hc))

/-!  ## Claim C4  -/

/-- Claim C4, counterexample: the evaluator deduplicates with exact string
equality, so the returned offending items can contain "Milk" and "MILK",
two elements that are equal ignoring case.  The claim as stated is
therefore false. -/
theorem claim_C4_counterexample :
    lit "Milk" ∈ (check_food_safety (lit "Milk") ⟨[lit "MILK"], lit ""⟩
      ⟨[], [], [], [lit "milk"]⟩).unsafe_ingredients ∧
    lit "MILK" ∈ (check_food_safety (lit "Milk") ⟨[lit "MILK"], lit ""⟩
      ⟨[], [], [], [lit "milk"]⟩).unsafe_ingredients ∧
    lowerStr (lit "Milk") = lowerStr (lit "MILK") ∧
    lit "Milk" ≠ lit "MILK" := by
  decide

/-- Claim C4 (amended): every set-valued collection returned by the core
is deduplicated under EXACT string equality (no two identical elements);
the restriction set produced by `analyze_prescription` is moreover
deduplicated case-insensitively (all its elements are already lower-case,
so no two of them are equal ignoring case), but the evaluator's
offending-item and explanation collections are not, as the counterexample
shows. -/
theorem claim_C4_amended (t food_name : Str) (food_info : FoodInfo) (restrictions : Findings) :
    (analyze_prescription t).restrictions.Pairwise (fun a b => lowerStr a ≠ lowerStr b) ∧
    (analyze_prescription t).restrictions.Nodup ∧
    (check_food_safety food_name food_info restrictions).unsafe_ingredients.Nodup ∧
    (check_food_safety food_name food_info restrictions).explanation.Nodup := by
  have hnd : (analyze_prescription t).restrictions.Nodup := by
    rw [analyze_restrictions_eq]
    exact List.nodup_dedup _
  refine ⟨?_, hnd, ?_, ?_⟩
  · refine List.Pairwise.imp_of_mem ?_ hnd
    intro a b ha hb hne
    rw [analyze_restrictions_lower_fixed t a ha, analyze_restrictions_lower_fixed t b hb]
    exact hne
  · rw [check_food_safety_unsafe_eq]
    exact List.nodup_dedup _
  · rw [check_food_safety_explanation_eq]
    exact List.nodup_dedup _

/-- Witness for claim C10: a concrete safe run and a concrete unsafe run. -/
theorem claim_C10_witness :
    (check_food_safety (lit "apple") ⟨[lit "apple", lit "water"], lit ""⟩ empty_findings).unsafe_ingredients = [] ∧
    (check_food_safety (lit "grapefruit juice") ⟨[], lit ""⟩ ⟨[lit "statins"], [], [], []⟩).recommendation = unsafeRecommendation :=
  ⟨((claim_C10 (lit "apple") ⟨[lit "apple", lit "water"], lit ""⟩ empty_findings).1 (by decide)).1,
   (claim_C10 (lit "grapefruit juice") ⟨[], lit ""⟩ ⟨[lit "statins"], [], [], []⟩).2 (by decide)⟩

